import Mathlib

/-!
Verification development for the logzio_aws_serverless CloudWatch shipper
(`python3/cloudwatch/src/lambda_function.py`).

The source is a single Python module.  We shallowly embed it:

* JSON/Python values are the inductive `JVal` (strings, integers, booleans,
  null, arrays, objects).  Python dictionaries with string keys are
  association lists (`Dict`) with insert-or-replace semantics (`setValue`),
  which matches Python dict assignment: an existing key keeps its position,
  a new key is appended.
* Python exceptions are the `PyErr` type; fallible code returns
  `Except PyErr _`.  A `try/except` that catches a particular exception
  class is embedded by matching on the error value.
* `os.environ` is the `Env` structure (the three variables the module
  reads); a missing variable is `none` and reading it raises `keyError`.
* The Lambda context object is `Ctx`; reading a missing attribute raises
  `attributeError` (Python attribute access on an object raises
  `AttributeError`, not `KeyError`).
* `json.loads` is a small executable JSON parser (`jsonLoads`) covering the
  shapes the module manipulates (objects, arrays, strings with the common
  escapes, integers, `true`/`false`/`null`); `json.dumps` is `jsonDumps`
  with CPython's default separators.
* `base64.b64decode` + `gzip` decompression + the initial `json.loads` of
  the envelope are external to the module's logic; they are abstracted as a
  `decode` function parameter whose failure carries the raised error.
-/

/-- Python-style values: the payloads produced by `json.loads` and stored in
log-record dictionaries. -/
inductive JVal where
  | str (s : String)
  | int (n : Int)
  | bool (b : Bool)
  | null
  | arr (xs : List JVal)
  | obj (kvs : List (String × JVal))

/-- The Python exception classes the module can raise or catch. -/
inductive PyErr where
  | keyError
  | valueError
  | attributeError
  | typeError
  | indexError
  deriving DecidableEq

/-- A Python dict with string keys, as an association list.  All dicts the
program builds have pairwise-distinct keys (Python dicts cannot hold
duplicates); operations below preserve that invariant. -/
abbrev Dict := List (String × JVal)

/-- First-match association lookup: `d[k]` / `k in d`. -/
def lookup : Dict → String → Option JVal
  | [], _ => none
  | (k', v) :: rest, k => if k' = k then some v else lookup rest k

/-- `k in d` (Python key-containment test on a dict). -/
def hasKey (d : Dict) (k : String) : Bool :=
  (lookup d k).isSome

/-- Python `d[k] = v`: replace the value at an existing key in place,
otherwise append the new pair. -/
def setValue : Dict → String → JVal → Dict
  | [], k, v => [(k, v)]
  | (k', v') :: rest, k, v =>
    if k' = k then (k, v) :: rest else (k', v') :: setValue rest k v

/-- Python `del d[k]`: remove the key.  (On a duplicate-free dict this is
exactly CPython's deletion.) -/
def removeKey : Dict → String → Dict
  | [], _ => []
  | (k', v') :: rest, k =>
    if k' = k then removeKey rest k else (k', v') :: removeKey rest k

/-- Python `d.update(other)`: each pair of `other`, in order, is written
into `d`, overwriting same-named fields. -/
def updateDict (d : Dict) (other : List (String × JVal)) : Dict :=
  other.foldl (fun acc kv => setValue acc kv.1 kv.2) d

/-- `d[k]` on a dict: `KeyError` when the key is missing. -/
def dictGet (d : Dict) (k : String) : Except PyErr JVal :=
  match lookup d k with
  | some v => .ok v
  | none => .error .keyError

/-- Subscript access `v[k]` on an arbitrary value: objects index by key
(`KeyError` when absent); strings, arrays and scalars raise `TypeError`
for a string subscript. -/
def getItem (v : JVal) (k : String) : Except PyErr JVal :=
  match v with
  | .obj kvs => dictGet kvs k
  | _ => .error .typeError

/-- ASCII lower-casing, as `str.lower()` behaves on the ASCII level names
the module compares. -/
def toLowerStr (s : String) : String :=
  String.mk (s.data.map Char.toLower)

/-- `p.isPrefixOf s` on strings (Python `s.startswith(p)`). -/
def startsWithStr (p s : String) : Bool :=
  p.data.isPrefixOf s.data

/-- Substring test (Python `needle in s` on strings). -/
def isSubstr (needle s : String) : Bool :=
  substrAux needle.data s.data
where
  substrAux (n : List Char) : List Char → Bool
    | [] => n.isEmpty
    | c :: cs => n.isPrefixOf (c :: cs) || substrAux n cs

/-- Split a string on a single separator character, Python
`s.split(c)`: always at least one part, empty parts preserved. -/
def splitChar (sep : Char) (s : String) : List String :=
  splitAux s.data []
where
  splitAux : List Char → List Char → List String
    | [], cur => [String.mk cur.reverse]
    | c :: cs, cur =>
      if c = sep then String.mk cur.reverse :: splitAux cs []
      else splitAux cs (c :: cur)

mutual
/-- Python `==` on JSON values (structural equality). -/
def jvalBEq : JVal → JVal → Bool
  | .str a, .str b => a == b
  | .int a, .int b => a == b
  | .bool a, .bool b => a == b
  | .null, .null => true
  | .arr a, .arr b => jvalListBEq a b
  | .obj a, .obj b => jvalKVBEq a b
  | _, _ => false

def jvalListBEq : List JVal → List JVal → Bool
  | [], [] => true
  | a :: as, b :: bs => jvalBEq a b && jvalListBEq as bs
  | _, _ => false

def jvalKVBEq : List (String × JVal) → List (String × JVal) → Bool
  | [], [] => true
  | (k, v) :: as, (k2, v2) :: bs => k == k2 && jvalBEq v v2 && jvalKVBEq as bs
  | _, _ => false
end

instance : BEq JVal := ⟨jvalBEq⟩

/-- Escape one character inside a JSON string literal, as `json.dumps`
does for the characters the module produces. -/
def jsonEscapeChar (c : Char) : String :=
  if c = '"' then "\\\""
  else if c = '\\' then "\\\\"
  else if c = '\n' then "\\n"
  else if c = '\t' then "\\t"
  else if c = '\r' then "\\r"
  else String.mk [c]

/-- A JSON string literal with surrounding quotes. -/
def jsonQuote (s : String) : String :=
  "\"" ++ String.join (s.data.map jsonEscapeChar) ++ "\""

mutual
/-- `json.dumps` with CPython's default separators `", "` and `": "`. -/
def jsonDumps : JVal → String
  | .str s => jsonQuote s
  | .int n => toString n
  | .bool b => if b then "true" else "false"
  | .null => "null"
  | .arr xs => "[" ++ jsonDumpsElems xs ++ "]"
  | .obj kvs => "\x7b" ++ jsonDumpsMembers kvs ++ "\x7d"

def jsonDumpsElems : List JVal → String
  | [] => ""
  | [x] => jsonDumps x
  | x :: y :: xs => jsonDumps x ++ ", " ++ jsonDumpsElems (y :: xs)

def jsonDumpsMembers : List (String × JVal) → String
  | [] => ""
  | [(k, v)] => jsonQuote k ++ ": " ++ jsonDumps v
  | (k, v) :: y :: xs => jsonQuote k ++ ": " ++ jsonDumps v ++ ", " ++ jsonDumpsMembers (y :: xs)
end

mutual
/-- Python `repr` for the shapes that can occur, used by `str()` on
composite values (single-quoted strings, `True`/`False`/`None`). -/
def pyRepr : JVal → String
  | .str s => "'" ++ s ++ "'"
  | .int n => toString n
  | .bool b => if b then "True" else "False"
  | .null => "None"
  | .arr xs => "[" ++ pyReprElems xs ++ "]"
  | .obj kvs => "\x7b" ++ pyReprMembers kvs ++ "\x7d"

def pyReprElems : List JVal → String
  | [] => ""
  | [x] => pyRepr x
  | x :: y :: xs => pyRepr x ++ ", " ++ pyReprElems (y :: xs)

def pyReprMembers : List (String × JVal) → String
  | [] => ""
  | [(k, v)] => "'" ++ k ++ "': " ++ pyRepr v
  | (k, v) :: y :: xs => "'" ++ k ++ "': " ++ pyRepr v ++ ", " ++ pyReprMembers (y :: xs)
end

/-- Python `str(v)`: strings pass through, scalars print Python-style,
composites print their `repr`. -/
def pyStr : JVal → String
  | .str s => s
  | .int n => toString n
  | .bool b => if b then "True" else "False"
  | .null => "None"
  | .arr xs => pyRepr (.arr xs)
  | .obj kvs => pyRepr (.obj kvs)

/-- Python `v.lower()`: defined on strings; any other value raises
`AttributeError`. -/
def pyLower (v : JVal) : Except PyErr String :=
  match v with
  | .str s => .ok (toLowerStr s)
  | _ => .error .attributeError

/-- Python `needle in v` for a string needle: substring test on strings,
key test on dicts, membership on lists; scalars raise `TypeError`. -/
def pyIn (needle : String) (v : JVal) : Except PyErr Bool :=
  match v with
  | .str s => .ok (isSubstr needle s)
  | .obj kvs => .ok (kvs.any (fun kv => kv.1 == needle))
  | .arr xs => .ok (xs.any (fun x => jvalBEq x (.str needle)))
  | _ => .error .typeError

/-- Skip JSON whitespace. -/
def skipWs : List Char → List Char
  | c :: cs =>
    if c = ' ' ∨ c = '\n' ∨ c = '\t' ∨ c = '\r' then skipWs cs else c :: cs
  | [] => []

/-- Parse the body of a JSON string literal after the opening quote,
handling the common escapes. -/
def parseStrBody : List Char → List Char → Option (String × List Char)
  | [], _ => none
  | c :: cs, acc =>
    if c = '"' then some (String.mk acc.reverse, cs)
    else if c = '\\' then
      match cs with
      | [] => none
      | e :: cs' =>
        if e = '"' then parseStrBody cs' ('"' :: acc)
        else if e = '\\' then parseStrBody cs' ('\\' :: acc)
        else if e = '/' then parseStrBody cs' ('/' :: acc)
        else if e = 'n' then parseStrBody cs' ('\n' :: acc)
        else if e = 't' then parseStrBody cs' ('\t' :: acc)
        else if e = 'r' then parseStrBody cs' ('\r' :: acc)
        else none
    else parseStrBody cs (c :: acc)

/-- Parse a run of decimal digits into a natural number. -/
def parseDigits : List Char → Nat → Option (Nat × List Char)
  | c :: cs, acc =>
    if c.isDigit then
      match parseDigits cs (acc * 10 + (c.toNat - '0'.toNat)) with
      | some r => some r
      | none => some (acc * 10 + (c.toNat - '0'.toNat), cs)
    else none
  | [], _ => none

/-- Parse a JSON integer (optional minus sign followed by digits). -/
def parseInt : List Char → Option (Int × List Char)
  | '-' :: cs =>
    match parseDigits cs 0 with
    | some (n, rest) => some (-(n : Int), rest)
    | none => none
  | cs =>
    match parseDigits cs 0 with
    | some (n, rest) => some ((n : Int), rest)
    | none => none

mutual
/-- Fuel-driven JSON value parser (the executable core of `json.loads`). -/
def parseVal : Nat → List Char → Option (JVal × List Char)
  | 0, _ => none
  | Nat.succ fuel, cs =>
    match skipWs cs with
    | [] => none
    | c :: rest =>
      if c = '"' then
        match parseStrBody rest [] with
        | some (s, r) => some (.str s, r)
        | none => none
      else if c = Char.ofNat 123 then parseObjBody fuel [] (skipWs rest) true
      else if c = '[' then parseArrBody fuel [] (skipWs rest) true
      else if c = 't' then
        match rest with
        | 'r' :: 'u' :: 'e' :: r => some (.bool true, r)
        | _ => none
      else if c = 'f' then
        match rest with
        | 'a' :: 'l' :: 's' :: 'e' :: r => some (.bool false, r)
        | _ => none
      else if c = 'n' then
        match rest with
        | 'u' :: 'l' :: 'l' :: r => some (.null, r)
        | _ => none
      else
        match parseInt (c :: rest) with
        | some (n, r) => some (.int n, r)
        | none => none

/-- Parse the members of a JSON object after the opening brace; a later
duplicate key overwrites the earlier value, as `json.loads` builds a dict. -/
def parseObjBody : Nat → Dict → List Char → Bool → Option (JVal × List Char)
  | 0, _, _, _ => none
  | Nat.succ fuel, acc, cs, first =>
    match cs with
    | [] => none
    | c :: rest =>
      if c = Char.ofNat 125 ∧ first then some (.obj acc, rest)
      else
        match skipWs (c :: rest) with
        | '"' :: r1 =>
          match parseStrBody r1 [] with
          | none => none
          | some (k, r2) =>
            match skipWs r2 with
            | ':' :: r3 =>
              match parseVal fuel r3 with
              | none => none
              | some (v, r4) =>
                match skipWs r4 with
                | ',' :: r5 => parseObjBody fuel (setValue acc k v) (skipWs r5) false
                | r5 =>
                  if r5.head? = some (Char.ofNat 125) then
                    some (.obj (setValue acc k v), r5.tail)
                  else none
            | _ => none
        | _ => none

/-- Parse the elements of a JSON array after the opening bracket. -/
def parseArrBody : Nat → List JVal → List Char → Bool → Option (JVal × List Char)
  | 0, _, _, _ => none
  | Nat.succ fuel, acc, cs, first =>
    match cs with
    | [] => none
    | c :: rest =>
      if c = ']' ∧ first then some (.arr acc.reverse, rest)
      else
        match parseVal fuel (c :: rest) with
        | none => none
        | some (v, r1) =>
          match skipWs r1 with
          | ',' :: r2 => parseArrBody fuel (v :: acc) (skipWs r2) false
          | ']' :: r2 => some (.arr (v :: acc).reverse, r2)
          | _ => none
end

/-- `json.loads` on a string: parse one JSON document, requiring only
trailing whitespace afterwards; any failure is a `ValueError`
(CPython raises `json.JSONDecodeError`, a `ValueError` subclass). -/
def jsonLoads (s : String) : Except PyErr JVal :=
  match parseVal (s.data.length + 2) s.data with
  | some (v, rest) =>
    if (skipWs rest).isEmpty then .ok v else .error .valueError
  | none => .error .valueError

/-- The three environment variables the module reads (`os.environ`); `none`
means the variable is absent and reading it raises `KeyError`. -/
structure Env where
  format : Option String
  enrich : Option String
  typeTag : Option String

/-- The Lambda invocation context object; `none` means the attribute is
unavailable on the object. -/
structure Ctx where
  function_version : Option String
  invoked_function_arn : Option String

/-- Python attribute access on the context: a missing attribute raises
`AttributeError`. -/
def getAttr (a : Option String) : Except PyErr String :=
  match a with
  | some s => .ok s
  | none => .error .attributeError

/-- `LOG_LEVELS` (module constant, line 12). -/
def LOG_LEVELS : List String :=
  ["alert", "trace", "debug", "notice", "info", "warn",
   "warning", "error", "err", "critical", "crit", "fatal",
   "severe", "emerg", "emergency"]

/-- `LOG_LEVELS_IGNORE` (module constant, line 16). -/
def LOG_LEVELS_IGNORE : List String := ["info"]

/-- `LAMBDA_LOG_GROUP` (module constant, line 21). -/
def LAMBDA_LOG_GROUP : String := "/aws/lambda/"

/-- `_extract_aws_logs_data` (lines 29-40): read
`event['awslogs']['data']`, then base64-decode, gunzip and JSON-parse it.
Those three steps are the abstract `decode` parameter; the `try` block
re-raises a `ValueError` (base64 and JSON failures are `ValueError`s) and
lets any other exception propagate unchanged. -/
def extract_aws_logs_data (decode : String → Except PyErr JVal)
    (event : JVal) : Except PyErr JVal :=
  match getItem event "awslogs" with
  | .error e => .error e
  | .ok aw =>
    match getItem aw "data" with
    | .error e => .error e
    | .ok dv =>
      match dv with
      | .str s =>
        match decode s with
        | .ok j => .ok j
        | .error .valueError => .error .valueError
        | .error e => .error e
      | _ => .error .typeError

/-- `_extract_lambda_log_message` (lines 43-54): split `str(log['message'])`
on tab; with exactly 3, 4 or 5 parts, the first becomes `@timestamp`, the
second `requestID`, the last `message`; with 4 or 5 parts the third,
lower-cased, becomes `log_level`. -/
def extract_lambda_log_message (log : Dict) : Except PyErr Dict :=
  match lookup log "message" with
  | none => .error .keyError
  | some mv =>
    let str_message := pyStr mv
    let message_parts := splitChar '\t' str_message
    let size := message_parts.length
    let log1 :=
      if size = 3 ∨ size = 5 ∨ size = 4 then
        setValue (setValue (setValue log
          "@timestamp" (.str (message_parts.getD 0 "")))
          "requestID" (.str (message_parts.getD 1 "")))
          "message" (.str (message_parts.getD (size - 1) ""))
      else log
    let log2 :=
      if size = 5 ∨ size = 4 then
        setValue log1 "log_level" (.str (toLowerStr (message_parts.getD 2 "")))
      else log1
    .ok log2

/-- `_add_timestamp` (lines 57-61): when `@timestamp` is absent, set it to
`str(log['timestamp'])` and delete `timestamp`; `log['timestamp']` raises
`KeyError` when that field is missing too. -/
def add_timestamp (log : Dict) : Except PyErr Dict :=
  if hasKey log "@timestamp" then .ok log
  else
    match lookup log "timestamp" with
    | none => .error .keyError
    | some v => .ok (removeKey (setValue log "@timestamp" (.str (pyStr v))) "timestamp")

/-- `_add_level` (lines 63-68): when `level` is absent and the message
contains the timeout marker, set `level` to `"error"`. -/
def add_level (log : Dict) : Except PyErr Dict :=
  if hasKey log "level" then .ok log
  else
    match lookup log "message" with
    | none => .error .keyError
    | some mv =>
      match pyIn "Task timed out after" mv with
      | .error e => .error e
      | .ok true => .ok (setValue log "level" (.str "error"))
      | .ok false => .ok log

/-- `_parse_to_json` (lines 70-83): try to JSON-parse `log['message']`.
In `FORMAT=json` mode every top-level key of the parsed object is merged
into the record; otherwise a recognized `level` value is copied to
`log_level`.  The `except (KeyError, ValueError)` swallows a missing
`message`, a parse failure and a missing `FORMAT` variable; any other
exception (`AttributeError` from `.lower()` or `.items()` on a non-object,
`TypeError` from `in` / subscripting a non-object) propagates. -/
def parse_to_json (env : Env) (log : Dict) : Except PyErr Dict :=
  match lookup log "message" with
  | none => .ok log
  | some mv =>
    match mv with
    | .str s =>
      match jsonLoads s with
      | .error _ => .ok log
      | .ok json_object =>
        match env.format with
        | none => .ok log
        | some f =>
          if toLowerStr f = "json" then
            match json_object with
            | .obj kvs => .ok (updateDict log kvs)
            | _ => .error .attributeError
          else
            match pyIn "level" json_object with
            | .error e => .error e
            | .ok false => .ok log
            | .ok true =>
              match getItem json_object "level" with
              | .error e => .error e
              | .ok log_level =>
                match pyLower log_level with
                | .error e => .error e
                | .ok low =>
                  if LOG_LEVELS.contains low then
                    .ok (setValue log "log_level" log_level)
                  else .ok log
    | _ => .error .typeError

/-- `_is_valid_log` (lines 132-136): a message starting with one of the
platform housekeeping markers is not a valid application log. -/
def is_valid_log (log : Dict) : Except PyErr Bool :=
  match lookup log "message" with
  | none => .error .keyError
  | some mv =>
    match mv with
    | .str message =>
      .ok (!(startsWithStr "START" message || startsWithStr "END" message ||
             startsWithStr "REPORT" message || startsWithStr "INIT_START" message))
    | _ => .error .attributeError

/-- One clause of lines 97-100: `k in log and log[k].lower() in
LOG_LEVELS_IGNORE` (short-circuiting). -/
def check_key_ignored (log : Dict) (k : String) : Except PyErr Bool :=
  match lookup log k with
  | none => .ok false
  | some v =>
    match pyLower v with
    | .error e => .error e
    | .ok low => .ok (LOG_LEVELS_IGNORE.contains low)

/-- Lines 95-101 of `_parse_cloudwatch_log`: merge the batch metadata into
the record, run the embedded-JSON expansion, then drop the record when its
`log_level` or `level` is in the ignore list. -/
def parse_tail (env : Env) (ad : Dict) (log : Dict) : Except PyErr (Dict × Bool) :=
  let log1 := updateDict log ad
  match parse_to_json env log1 with
  | .error e => .error e
  | .ok log2 =>
    match check_key_ignored log2 "log_level" with
    | .error e => .error e
    | .ok true => .ok (log2, false)
    | .ok false =>
      match check_key_ignored log2 "level" with
      | .error e => .error e
      | .ok true => .ok (log2, false)
      | .ok false => .ok (log2, true)

/-- `_parse_cloudwatch_log` (lines 86-101): the per-record normalizer.
Returns the mutated record and the keep/drop decision (`true` = ship). -/
def parse_cloudwatch_log (env : Env) (log ad : Dict) : Except PyErr (Dict × Bool) :=
  match add_timestamp log with
  | .error e => .error e
  | .ok log1 =>
    match add_level log1 with
    | .error e => .error e
    | .ok log2 =>
      match dictGet ad "logGroup" with
      | .error e => .error e
      | .ok g =>
        match pyIn LAMBDA_LOG_GROUP g with
        | .error e => .error e
        | .ok true =>
          match is_valid_log log2 with
          | .error e => .error e
          | .ok true =>
            match extract_lambda_log_message log2 with
            | .error e => .error e
            | .ok log3 => parse_tail env ad log3
          | .ok false => .ok (log2, false)
        | .ok false => parse_tail env ad log2

/-- `_get_additional_logs_data` (lines 104-129): copy the four payload
fields, attempt the two context attributes inside a `try/except KeyError`
(so the `AttributeError` a missing attribute actually raises is NOT
caught), apply the `ENRICH` pairs (a pair without `=` raises an uncaught
`IndexError`), and set `type` with its default. -/
def get_additional_logs_data (aws_logs_data : JVal) (context : Ctx)
    (env : Env) : Except PyErr Dict :=
  match getItem aws_logs_data "logGroup" with
  | .error e => .error e
  | .ok g =>
    match getItem aws_logs_data "logStream" with
    | .error e => .error e
    | .ok st =>
      match getItem aws_logs_data "messageType" with
      | .error e => .error e
      | .ok mt =>
        match getItem aws_logs_data "owner" with
        | .error e => .error e
        | .ok ow =>
          let base : Dict :=
            [("logGroup", g), ("logStream", st), ("messageType", mt), ("owner", ow)]
          -- try: read the two context attributes; except KeyError: keep going.
          match contextStep base context with
          | .error e => .error e
          | .ok ad1 =>
            -- try: apply ENRICH; except KeyError (absent variable): pass.
            match enrichStep ad1 env with
            | .error e => .error e
            | .ok ad2 =>
              match env.typeTag with
              | some t => .ok (setValue ad2 "type" (.str t))
              | none => .ok (setValue ad2 "type" (.str "logzio_cloudwatch_lambda"))
where
  /- Lines 108-112.  Attribute access raises `AttributeError` when the
  attribute is unavailable; the surrounding `except KeyError` does not
  match it, so it propagates.  (A `KeyError` cannot actually arise here.) -/
  contextStep (base : Dict) (context : Ctx) : Except PyErr Dict :=
    match getAttr context.function_version with
    | .error .keyError => .ok base
    | .error e => .error e
    | .ok fv =>
      let ad := setValue base "function_version" (.str fv)
      match getAttr context.invoked_function_arn with
      | .error .keyError => .ok ad
      | .error e => .error e
      | .ok arn => .ok (setValue ad "invoked_function_arn" (.str arn))
  /- Lines 114-122.  `os.environ['ENRICH']` missing raises `KeyError`,
  caught by the `except KeyError: pass`; an empty string is falsy and
  skips the block; a malformed pair raises an uncaught `IndexError`. -/
  enrichStep (ad : Dict) (env : Env) : Except PyErr Dict :=
    match env.enrich with
    | none => .ok ad
    | some s =>
      if s = "" then .ok ad
      else enrichPairs ad (splitChar ';' s)
  enrichPairs (ad : Dict) : List String → Except PyErr Dict
    | [] => .ok ad
    | p :: rest =>
      match splitChar '=' p with
      | k :: v :: _ => enrichPairs (setValue ad k (.str v)) rest
      | _ => .error .indexError

/-- `is_simple_value` (lines 138-139): strings, numbers and booleans are
primitive; `None`, lists and dicts are not. -/
def is_simple_value : JVal → Bool
  | .str _ => true
  | .int _ => true
  | .bool _ => true
  | _ => false

/-- The promotion loop inside `flatten_object` (lines 148-150): each
primitive sub-field of `data` is written to the top level. -/
def promoteData (acc : Dict) (sub : List (String × JVal)) : Dict :=
  sub.foldl (fun a kv => if is_simple_value kv.2 then setValue a kv.1 kv.2 else a) acc

/-- The main loop of `flatten_object` (lines 143-151).  A composite value
under the key `data` has `.items()` called on it, which raises
`AttributeError` unless it is a dict. -/
def flattenLoop : List (String × JVal) → Dict → Except PyErr Dict
  | [], acc => .ok acc
  | (k, v) :: rest, acc =>
    if is_simple_value v then flattenLoop rest (setValue acc k v)
    else if k = "data" then
      match v with
      | .obj sub =>
        flattenLoop rest (setValue (promoteData acc sub) k (.str (jsonDumps v)))
      | _ => .error .attributeError
    else flattenLoop rest (setValue acc k (.str (jsonDumps v)))

/-- `flatten_object` (lines 141-153): flatten the record and add the
version marker (its misspelling `logVerstion` is the source's own). -/
def flatten_object (obj : Dict) : Except PyErr Dict :=
  match flattenLoop obj [] with
  | .error e => .error e
  | .ok flattened => .ok (setValue flattened "logVerstion" (.str "v3"))

/-- The `for log in aws_logs_data['logEvents']` loop of `lambda_handler`
(lines 163-168), with the Shipper as an observable: the list of dicts
passed to `add`, in call order, and the first uncaught exception if any
(entries already added before a fault stay added). -/
def run_log_events (env : Env) : List JVal → Dict → List Dict × Option PyErr
  | [], _ => ([], none)
  | x :: rest, ad =>
    match x with
    | .obj d =>
      match parse_cloudwatch_log env d ad with
      | .error e => ([], some e)
      | .ok (r, true) =>
        match flatten_object r with
        | .error e => ([], some e)
        | .ok f =>
          let p := run_log_events env rest ad
          (f :: p.1, p.2)
      | .ok (_, false) => run_log_events env rest ad
    | _ => ([], some .typeError)

/-- The batch portion of `lambda_handler` (lines 163-170): run the loop,
then `shipper.flush()` exactly once when no exception escaped.  Result:
(`add` calls in order, number of `flush` calls, uncaught exception). -/
def run_batch (env : Env) (events : List JVal) (ad : Dict) :
    List Dict × Nat × Option PyErr :=
  let p := run_log_events env events ad
  (p.1, if p.2.isSome then 0 else 1, p.2)

/-- Iterating `aws_logs_data['logEvents']` in the `for` loop: lists yield
their elements, dicts their keys, strings their characters; other values
are not iterable (`TypeError`, which `len(...)` on line 162 also raises
for scalars). -/
def eventsIter : JVal → Except PyErr (List JVal)
  | .arr l => .ok l
  | .obj kvs => .ok (kvs.map (fun kv => JVal.str kv.1))
  | .str s => .ok (s.data.map (fun c => JVal.str (String.mk [c])))
  | _ => .error .typeError

/-- `lambda_handler` (lines 155-170): decode the envelope, build the batch
metadata, process every entry, flush once.  Observables as in
`run_batch`; a failure before the loop yields no `add` and no `flush`. -/
def lambda_handler (decode : String → Except PyErr JVal) (event : JVal)
    (context : Ctx) (env : Env) : List Dict × Nat × Option PyErr :=
  match extract_aws_logs_data decode event with
  | .error e => ([], 0, some e)
  | .ok aws_logs_data =>
    match get_additional_logs_data aws_logs_data context env with
    | .error e => ([], 0, some e)
    | .ok additional_data =>
      match getItem aws_logs_data "logEvents" with
      | .error e => ([], 0, some e)
      | .ok ev =>
        match eventsIter ev with
        | .error e => ([], 0, some e)
        | .ok l => run_batch env l additional_data

/-- Per-entry outcome of the handler loop: `none` when the entry is
dropped, `some f` when its flattened form is shipped; used to state the
order-preservation property. -/
def keptResult (env : Env) (ad : Dict) (x : JVal) : Except PyErr (Option Dict) :=
  match x with
  | .obj d =>
    match parse_cloudwatch_log env d ad with
    | .error e => .error e
    | .ok (r, true) =>
      match flatten_object r with
      | .error e => .error e
      | .ok f => .ok (some f)
    | .ok (_, false) => .ok none
  | _ => .error .typeError

/-- Effectful map over a list in the `Except` monad, explicit so that it
unfolds structurally. -/
def exMapM : List JVal → (JVal → Except PyErr (Option Dict)) →
    Except PyErr (List (Option Dict))
  | [], _ => .ok []
  | x :: xs, f =>
    match f x with
    | .error e => .error e
    | .ok b =>
      match exMapM xs f with
      | .error e => .error e
      | .ok bs => .ok (b :: bs)

/-! ## Dictionary lemmas -/

theorem lookup_setValue_self (d : Dict) (k : String) (v : JVal) :
    lookup (setValue d k v) k = some v := by
  induction d with
  | nil => simp [setValue, lookup]
  | cons hd tl ih =>
    obtain ⟨k', v'⟩ := hd
    by_cases hk : k' = k
    · simp [setValue, hk, lookup]
    · simp [setValue, hk, lookup, ih]

theorem lookup_setValue_ne (d : Dict) (k : String) (v : JVal) (k' : String)
    (h : k' ≠ k) : lookup (setValue d k v) k' = lookup d k' := by
  induction d with
  | nil => simp [setValue, lookup, Ne.symm h]
  | cons hd tl ih =>
    obtain ⟨k0, v0⟩ := hd
    by_cases hk : k0 = k
    · subst hk
      simp [setValue, lookup, Ne.symm h]
    · simp [setValue, hk, lookup, ih]

theorem lookup_removeKey_self (d : Dict) (k : String) :
    lookup (removeKey d k) k = none := by
  induction d with
  | nil => simp [removeKey, lookup]
  | cons hd tl ih =>
    obtain ⟨k0, v0⟩ := hd
    by_cases hk : k0 = k
    · simp [removeKey, hk, ih]
    · simp [removeKey, hk, lookup, ih]

theorem lookup_removeKey_ne (d : Dict) (k k' : String) (h : k' ≠ k) :
    lookup (removeKey d k) k' = lookup d k' := by
  induction d with
  | nil => simp [removeKey]
  | cons hd tl ih =>
    obtain ⟨k0, v0⟩ := hd
    by_cases hk : k0 = k
    · subst hk
      simp [removeKey, lookup, Ne.symm h, ih]
    · simp [removeKey, hk, lookup, ih]

/-! ## C1: tab-separated runtime-line extraction -/

/-- C1.  For a record whose message splits on tab into exactly 3, 4 or 5
parts, `_extract_lambda_log_message` sets `@timestamp` to the first part,
`requestID` to the second and `message` to the last; with 4 or 5 parts it
also sets `log_level` to the lower-cased third part (with 3 parts
`log_level` is untouched); any other part count leaves the record
untouched. -/
theorem extract_lambda_message_parts (log : Dict) (m : String)
    (h : lookup log "message" = some (.str m)) :
    (((splitChar '\t' m).length = 3 ∨ (splitChar '\t' m).length = 4 ∨
        (splitChar '\t' m).length = 5) →
      ∃ r, extract_lambda_log_message log = .ok r ∧
        lookup r "@timestamp" = some (.str ((splitChar '\t' m).getD 0 "")) ∧
        lookup r "requestID" = some (.str ((splitChar '\t' m).getD 1 "")) ∧
        lookup r "message" =
          some (.str ((splitChar '\t' m).getD ((splitChar '\t' m).length - 1) "")) ∧
        (((splitChar '\t' m).length = 4 ∨ (splitChar '\t' m).length = 5) →
          lookup r "log_level" =
            some (.str (toLowerStr ((splitChar '\t' m).getD 2 "")))) ∧
        ((splitChar '\t' m).length = 3 →
          lookup r "log_level" = lookup log "log_level")) ∧
    ((splitChar '\t' m).length ≠ 3 → (splitChar '\t' m).length ≠ 4 →
      (splitChar '\t' m).length ≠ 5 →
      extract_lambda_log_message log = .ok log) := by
  constructor
  · intro hsz
    rcases hsz with h3 | h4 | h5
    · have hr : extract_lambda_log_message log = .ok
          (setValue (setValue (setValue log
            "@timestamp" (.str ((splitChar '\t' m).getD 0 "")))
            "requestID" (.str ((splitChar '\t' m).getD 1 "")))
            "message" (.str ((splitChar '\t' m).getD 2 ""))) := by
        simp [extract_lambda_log_message, h, pyStr, h3]
      refine ⟨_, hr, ?_, ?_, ?_, ?_, ?_⟩
      · rw [lookup_setValue_ne _ _ _ _ (by decide),
          lookup_setValue_ne _ _ _ _ (by decide), lookup_setValue_self]
      · rw [lookup_setValue_ne _ _ _ _ (by decide), lookup_setValue_self]
      · rw [lookup_setValue_self]
        simp [h3]
      · intro h45
        rcases h45 with h4 | h4 <;> rw [h3] at h4 <;> exact absurd h4 (by decide)
      · intro _
        rw [lookup_setValue_ne _ _ _ _ (by decide),
          lookup_setValue_ne _ _ _ _ (by decide),
          lookup_setValue_ne _ _ _ _ (by decide)]
    · have hr : extract_lambda_log_message log = .ok
          (setValue (setValue (setValue (setValue log
            "@timestamp" (.str ((splitChar '\t' m).getD 0 "")))
            "requestID" (.str ((splitChar '\t' m).getD 1 "")))
            "message" (.str ((splitChar '\t' m).getD 3 "")))
            "log_level" (.str (toLowerStr ((splitChar '\t' m).getD 2 "")))) := by
        simp [extract_lambda_log_message, h, pyStr, h4]
      refine ⟨_, hr, ?_, ?_, ?_, ?_, ?_⟩
      · rw [lookup_setValue_ne _ _ _ _ (by decide),
          lookup_setValue_ne _ _ _ _ (by decide),
          lookup_setValue_ne _ _ _ _ (by decide), lookup_setValue_self]
      · rw [lookup_setValue_ne _ _ _ _ (by decide),
          lookup_setValue_ne _ _ _ _ (by decide), lookup_setValue_self]
      · rw [lookup_setValue_ne _ _ _ _ (by decide), lookup_setValue_self]
        simp [h4]
      · intro _
        rw [lookup_setValue_self]
      · intro h3
        rw [h3] at h4
        exact absurd h4 (by decide)
    · have hr : extract_lambda_log_message log = .ok
          (setValue (setValue (setValue (setValue log
            "@timestamp" (.str ((splitChar '\t' m).getD 0 "")))
            "requestID" (.str ((splitChar '\t' m).getD 1 "")))
            "message" (.str ((splitChar '\t' m).getD 4 "")))
            "log_level" (.str (toLowerStr ((splitChar '\t' m).getD 2 "")))) := by
        simp [extract_lambda_log_message, h, pyStr, h5]
      refine ⟨_, hr, ?_, ?_, ?_, ?_, ?_⟩
      · rw [lookup_setValue_ne _ _ _ _ (by decide),
          lookup_setValue_ne _ _ _ _ (by decide),
          lookup_setValue_ne _ _ _ _ (by decide), lookup_setValue_self]
      · rw [lookup_setValue_ne _ _ _ _ (by decide),
          lookup_setValue_ne _ _ _ _ (by decide), lookup_setValue_self]
      · rw [lookup_setValue_ne _ _ _ _ (by decide), lookup_setValue_self]
        simp [h5]
      · intro _
        rw [lookup_setValue_self]
      · intro h3
        rw [h3] at h5
        exact absurd h5 (by decide)
  · intro h3 h4 h5
    simp [extract_lambda_log_message, h, pyStr, h3, h4, h5]

/-- The five-part tab-delimited example message from the specification. -/
def c1msg : String := "2024-01-01T00:00:00Z\treq-123\tINFO\textra\tactual message"

/-- A record carrying the example message. -/
def c1log : Dict := [("message", .str c1msg)]

/-- C1 witness: the theorem applied to the specification's five-part
example, whose concrete outcome is `@timestamp="2024-01-01T00:00:00Z"`,
`requestID="req-123"`, `log_level="info"`, `message="actual message"`. -/
theorem extract_lambda_message_parts_witness :
    lookup c1log "message" = some (.str c1msg) ∧
    ((((splitChar '\t' c1msg).length = 3 ∨ (splitChar '\t' c1msg).length = 4 ∨
        (splitChar '\t' c1msg).length = 5) →
      ∃ r, extract_lambda_log_message c1log = .ok r ∧
        lookup r "@timestamp" = some (.str ((splitChar '\t' c1msg).getD 0 "")) ∧
        lookup r "requestID" = some (.str ((splitChar '\t' c1msg).getD 1 "")) ∧
        lookup r "message" =
          some (.str ((splitChar '\t' c1msg).getD ((splitChar '\t' c1msg).length - 1) "")) ∧
        (((splitChar '\t' c1msg).length = 4 ∨ (splitChar '\t' c1msg).length = 5) →
          lookup r "log_level" =
            some (.str (toLowerStr ((splitChar '\t' c1msg).getD 2 "")))) ∧
        ((splitChar '\t' c1msg).length = 3 →
          lookup r "log_level" = lookup c1log "log_level")) ∧
    ((splitChar '\t' c1msg).length ≠ 3 → (splitChar '\t' c1msg).length ≠ 4 →
      (splitChar '\t' c1msg).length ≠ 5 →
      extract_lambda_log_message c1log = .ok c1log)) ∧
    extract_lambda_log_message c1log = .ok
      [("message", .str "actual message"),
       ("@timestamp", .str "2024-01-01T00:00:00Z"),
       ("requestID", .str "req-123"),
       ("log_level", .str "info")] :=
  ⟨rfl, extract_lambda_message_parts c1log c1msg rfl, rfl⟩

/-! ## C4: timestamp inference -/

/-- A raw entry that already carries a caller-supplied `@timestamp` next to
a raw `timestamp` field. -/
def c4log : Dict := [("@timestamp", .str "x"), ("timestamp", .int 1), ("message", .str "m")]

/-- C4 counterexample: when `@timestamp` is already present,
`_add_timestamp` does nothing, so the raw `timestamp` field is NOT
consumed and the normalized record carries both timestamp fields. -/
theorem add_timestamp_keeps_raw_counterexample :
    add_timestamp c4log = .ok c4log ∧
    lookup c4log "@timestamp" = some (.str "x") ∧
    lookup c4log "timestamp" = some (.int 1) :=
  ⟨rfl, rfl, rfl⟩

/-- C4 amended: if `@timestamp` is absent, `_add_timestamp` sets it to the
stringified `timestamp` value, removes `timestamp` and touches nothing
else; if `@timestamp` is already present the entry is left unchanged, so a
coexisting raw `timestamp` field survives. -/
theorem add_timestamp_behavior (log : Dict) (v : JVal) :
    (lookup log "@timestamp" = none → lookup log "timestamp" = some v →
      ∃ r, add_timestamp log = .ok r ∧
        lookup r "@timestamp" = some (.str (pyStr v)) ∧
        lookup r "timestamp" = none ∧
        (∀ k, k ≠ "@timestamp" → k ≠ "timestamp" → lookup r k = lookup log k)) ∧
    (∀ w, lookup log "@timestamp" = some w → add_timestamp log = .ok log) := by
  constructor
  · intro hts hraw
    have hr : add_timestamp log = .ok
        (removeKey (setValue log "@timestamp" (.str (pyStr v))) "timestamp") := by
      simp [add_timestamp, hasKey, hts, hraw]
    refine ⟨_, hr, ?_, ?_, ?_⟩
    · rw [lookup_removeKey_ne _ _ _ (by decide), lookup_setValue_self]
    · exact lookup_removeKey_self _ _
    · intro k hk1 hk2
      rw [lookup_removeKey_ne _ _ _ hk2, lookup_setValue_ne _ _ _ _ hk1]
  · intro w hw
    simp [add_timestamp, hasKey, hw]

/-- A record with neither timestamp field absent: `timestamp` present but
no `@timestamp`. -/
def c4wlog : Dict := [("timestamp", .str "7"), ("message", .str "m")]

/-- C4 witness: the amended behavior at a concrete entry without
`@timestamp`. -/
theorem add_timestamp_behavior_witness :
    (lookup c4wlog "@timestamp" = none ∧ lookup c4wlog "timestamp" = some (.str "7")) ∧
    (∃ r, add_timestamp c4wlog = .ok r ∧
      lookup r "@timestamp" = some (.str (pyStr (.str "7"))) ∧
      lookup r "timestamp" = none ∧
      (∀ k, k ≠ "@timestamp" → k ≠ "timestamp" → lookup r k = lookup c4wlog k)) :=
  ⟨⟨rfl, rfl⟩, (add_timestamp_behavior c4wlog (.str "7")).1 rfl rfl⟩

/-! ## C5: missing optional context attributes -/

/-- A decoded payload with the four required metadata fields. -/
def c5payload : JVal :=
  .obj [("logGroup", .str "g"), ("logStream", .str "s"),
        ("messageType", .str "t"), ("owner", .str "o")]

/-- C5: the code contradicts the intended (and logged) behavior.  Reading
an unavailable context attribute raises `AttributeError`, but the guard is
`except KeyError`, so the error is NOT caught: the Context Enricher fails
and the batch aborts instead of continuing without the field. -/
theorem missing_context_attribute_aborts :
    get_additional_logs_data c5payload ⟨none, some "arn"⟩ ⟨none, none, none⟩ =
      .error .attributeError := rfl

/-! ## C10: absent FORMAT variable disables the expansion -/

/-- C10.  When the `FORMAT` variable is absent from the environment,
`_parse_to_json` changes nothing: even when the message parses as JSON,
the `os.environ['FORMAT']` lookup raises `KeyError`, which the
`except (KeyError, ValueError)` handler swallows before any merging or
`log_level` extraction can happen. -/
theorem format_absent_expansion_noop (env : Env) (log : Dict) (s : String)
    (hf : env.format = none) (hm : lookup log "message" = some (.str s)) :
    parse_to_json env log = .ok log := by
  unfold parse_to_json
  rw [hm]
  cases hjs : jsonLoads s with
  | error e => simp [hjs]
  | ok j => simp [hjs, hf]

/-- A record whose message is valid JSON with a recognized `level`. -/
def c10log : Dict := [("message", .str "\x7b\"level\": \"error\"\x7d")]

/-- C10 witness: with `FORMAT` absent, a message that parses as JSON and
contains the recognized level `"error"` still passes through unchanged. -/
theorem format_absent_expansion_noop_witness :
    (Env.mk none none none).format = none ∧
    lookup c10log "message" = some (.str "\x7b\"level\": \"error\"\x7d") ∧
    parse_to_json ⟨none, none, none⟩ c10log = .ok c10log :=
  ⟨rfl, rfl, format_absent_expansion_noop ⟨none, none, none⟩ c10log _ rfl rfl⟩

/-! ## C6: embedded-JSON expansion silent cases -/

/-- Structured-output environment (`FORMAT=json`). -/
def c6envJ : Env := ⟨some "json", none, none⟩

/-- Non-structured environment (`FORMAT=text`). -/
def c6envT : Env := ⟨some "text", none, none⟩

/-- A record whose message parses as JSON with no `level` key. -/
def c6log1 : Dict := [("message", .str "\x7b\"code\": 500\x7d")]

/-- The same record after `FORMAT=json` merging. -/
def c6log1m : Dict := [("message", .str "\x7b\"code\": 500\x7d"), ("code", .int 500)]

/-- A record whose message parses as JSON with a non-string `level`. -/
def c6log2 : Dict := [("message", .str "\x7b\"level\": 5\x7d")]

/-- C6 counterexample: the expansion is NOT always a harmless no-op on a
record without a recognized `level`.  In structured mode a parsed message
with no `level` is merged into the record (so the record changes), and in
non-structured mode a non-string `level` raises an uncaught
`AttributeError` from `.lower()`. -/
theorem parse_to_json_not_noop_counterexample :
    (parse_to_json c6envJ c6log1 = .ok c6log1m ∧ c6log1m ≠ c6log1) ∧
    parse_to_json c6envT c6log2 = .error .attributeError :=
  ⟨⟨rfl, fun h => absurd (congrArg List.length h) (by decide)⟩, rfl⟩

/-- Key-containment agrees with lookup on association lists. -/
theorem any_key_eq (d : Dict) (k : String) :
    (d.any (fun kv => kv.1 == k)) = (lookup d k).isSome := by
  induction d with
  | nil => rfl
  | cons hd tl ih =>
    obtain ⟨k0, v0⟩ := hd
    by_cases hk : k0 = k
    · simp [lookup, hk]
    · simp [lookup, hk, ih]

/-- C6 amended: a message that fails to parse as JSON always leaves the
record unchanged without error; and when `FORMAT` is present but not the
structured mode, a message parsing as a JSON object with no `level` key,
or with a string-valued `level` outside the recognized vocabulary, also
leaves the record unchanged.  (In structured mode parsed keys are merged
even without a `level`; a non-string `level` raises an uncaught error.) -/
theorem parse_to_json_silent_cases (env : Env) (log : Dict) (s : String)
    (hm : lookup log "message" = some (.str s)) :
    (∀ e, jsonLoads s = .error e → parse_to_json env log = .ok log) ∧
    (∀ f kvs, env.format = some f → toLowerStr f ≠ "json" →
      jsonLoads s = .ok (.obj kvs) → lookup kvs "level" = none →
      parse_to_json env log = .ok log) ∧
    (∀ f kvs lv, env.format = some f → toLowerStr f ≠ "json" →
      jsonLoads s = .ok (.obj kvs) → lookup kvs "level" = some (.str lv) →
      LOG_LEVELS.contains (toLowerStr lv) = false →
      parse_to_json env log = .ok log) := by
  refine ⟨?_, ?_, ?_⟩
  · intro e hjs
    unfold parse_to_json
    rw [hm]
    simp [hjs]
  · intro f kvs hf hne hjs hnl
    unfold parse_to_json
    rw [hm]
    have hany : (kvs.any (fun kv => kv.1 == "level")) = false := by
      rw [any_key_eq, hnl]
      rfl
    simp [hjs, hf, hne, pyIn, hany]
  · intro f kvs lv hf hne hjs hlv hout
    unfold parse_to_json
    rw [hm]
    have hany : (kvs.any (fun kv => kv.1 == "level")) = true := by
      rw [any_key_eq, hlv]
      rfl
    simp [hjs, hf, hne, pyIn, hany, getItem, dictGet, hlv, pyLower, hout]
    intro hmem
    exact absurd hmem (by simpa using hout)

/-- A record with an unparseable message. -/
def c6wlogA : Dict := [("message", .str "not json")]

/-- A record whose message is a JSON object without `level`. -/
def c6wlogB : Dict := [("message", .str "\x7b\"code\": 7\x7d")]

/-- A record whose message has a string `level` outside the vocabulary. -/
def c6wlogC : Dict := [("message", .str "\x7b\"level\": \"verbose\"\x7d")]

/-- C6 witness: the three amended silent cases at concrete records. -/
theorem parse_to_json_silent_cases_witness :
    (jsonLoads "not json" = .error .valueError ∧
      parse_to_json c6envT c6wlogA = .ok c6wlogA) ∧
    (toLowerStr "text" ≠ "json" ∧
      jsonLoads "\x7b\"code\": 7\x7d" = .ok (.obj [("code", .int 7)]) ∧
      lookup [("code", JVal.int 7)] "level" = none ∧
      parse_to_json c6envT c6wlogB = .ok c6wlogB) ∧
    (jsonLoads "\x7b\"level\": \"verbose\"\x7d" = .ok (.obj [("level", .str "verbose")]) ∧
      LOG_LEVELS.contains (toLowerStr "verbose") = false ∧
      parse_to_json c6envT c6wlogC = .ok c6wlogC) :=
  ⟨⟨rfl, (parse_to_json_silent_cases c6envT c6wlogA "not json" rfl).1 .valueError rfl⟩,
   ⟨by decide, rfl, rfl,
    (parse_to_json_silent_cases c6envT c6wlogB "\x7b\"code\": 7\x7d" rfl).2.1
      "text" [("code", .int 7)] rfl (by decide) rfl rfl⟩,
   ⟨rfl, rfl,
    (parse_to_json_silent_cases c6envT c6wlogC "\x7b\"level\": \"verbose\"\x7d" rfl).2.2
      "text" [("level", .str "verbose")] "verbose" rfl (by decide) rfl rfl rfl⟩⟩

/-! ## C8: decode failure aborts before any record -/

/-- C8.  When the envelope payload fails base64 decoding, decompression or
JSON parsing, `lambda_handler` propagates the error raised before the
record loop: the Shipper receives zero `add` calls and zero `flush`
calls. -/
theorem decode_failure_no_shipping (decode : String → Except PyErr JVal)
    (event : JVal) (ctx : Ctx) (env : Env) (aw : JVal) (s : String) (e : PyErr)
    (h1 : getItem event "awslogs" = .ok aw)
    (h2 : getItem aw "data" = .ok (.str s))
    (h3 : decode s = .error e) :
    lambda_handler decode event ctx env = ([], 0, some e) := by
  have hx : extract_aws_logs_data decode event = .error e := by
    unfold extract_aws_logs_data
    cases e <;> simp [h1, h2, h3]
  unfold lambda_handler
  rw [hx]

/-- An envelope whose payload will fail to decode. -/
def c8event : JVal := .obj [("awslogs", .obj [("data", .str "corrupt")])]

/-- C8 witness: a decoder that fails with `ValueError` (as corrupted
base64 or JSON does) yields zero adds, zero flushes and the propagated
error. -/
theorem decode_failure_no_shipping_witness :
    getItem c8event "awslogs" = .ok (.obj [("data", .str "corrupt")]) ∧
    getItem (.obj [("data", .str "corrupt")]) "data" = .ok (.str "corrupt") ∧
    (fun (_ : String) => (Except.error PyErr.valueError : Except PyErr JVal)) "corrupt" =
      .error .valueError ∧
    lambda_handler (fun _ => .error .valueError) c8event ⟨some "v", some "a"⟩
      ⟨none, none, none⟩ = ([], 0, some .valueError) :=
  ⟨rfl, rfl, rfl,
   decode_failure_no_shipping (fun _ => .error .valueError) c8event
     ⟨some "v", some "a"⟩ ⟨none, none, none⟩ _ "corrupt" .valueError rfl rfl rfl⟩

/-! ## C2: ignore-listed severities are dropped -/

/-- Removing a dropped entry from a batch does not change the Shipper
observables: a record for which `_parse_cloudwatch_log` returns `False`
contributes no `add` call and no error. -/
theorem run_log_events_drop (env : Env) (d ad : Dict) (r : Dict)
    (h : parse_cloudwatch_log env d ad = .ok (r, false)) :
    ∀ pre post, run_log_events env (pre ++ .obj d :: post) ad =
      run_log_events env (pre ++ post) ad := by
  intro pre post
  induction pre with
  | nil => simp [run_log_events, h]
  | cons x xs ih =>
    cases x with
    | obj d2 =>
      cases hp : parse_cloudwatch_log env d2 ad with
      | error e => simp [run_log_events, hp]
      | ok pr =>
        obtain ⟨r2, b2⟩ := pr
        cases b2 with
        | false => simpa [run_log_events, hp] using ih
        | true =>
          cases hf : flatten_object r2 with
          | error e => simp [run_log_events, hp, hf]
          | ok f => simp [run_log_events, hp, hf, ih]
    | str s => simp [run_log_events]
    | int n => simp [run_log_events]
    | bool b => simp [run_log_events]
    | null => simp [run_log_events]
    | arr l => simp [run_log_events]

/-- If the tail of the normalizer keeps a record, both ignore-list checks
on the final record came back `False`. -/
theorem parse_tail_keep (env : Env) (ad l : Dict) (r : Dict)
    (h : parse_tail env ad l = .ok (r, true)) :
    check_key_ignored r "log_level" = .ok false ∧
    check_key_ignored r "level" = .ok false := by
  unfold parse_tail at h
  cases hp : parse_to_json env (updateDict l ad) with
  | error e => simp [hp] at h
  | ok log2 =>
    simp only [hp] at h
    cases h1 : check_key_ignored log2 "log_level" with
    | error e => simp [h1] at h
    | ok b1 =>
      simp only [h1] at h
      cases b1 with
      | false =>
        cases h2 : check_key_ignored log2 "level" with
        | error e => simp [h2] at h
        | ok b2 =>
          simp only [h2] at h
          cases b2 with
          | false =>
            simp at h
            subst h
            exact ⟨h1, h2⟩
          | true => simp at h
      | true => simp at h

/-- A record the normalizer keeps was kept by the final stage: the
keep/`True` outcome always comes from `parse_tail`. -/
theorem parse_keep_from_tail (env : Env) (log ad : Dict) (r : Dict)
    (h : parse_cloudwatch_log env log ad = .ok (r, true)) :
    ∃ l, parse_tail env ad l = .ok (r, true) := by
  unfold parse_cloudwatch_log at h
  cases h1 : add_timestamp log with
  | error e => simp [h1] at h
  | ok log1 =>
    simp only [h1] at h
    cases h2 : add_level log1 with
    | error e => simp [h2] at h
    | ok log2 =>
      simp only [h2] at h
      cases h3 : dictGet ad "logGroup" with
      | error e => simp [h3] at h
      | ok g =>
        simp only [h3] at h
        cases h4 : pyIn LAMBDA_LOG_GROUP g with
        | error e => simp [h4] at h
        | ok inl =>
          simp only [h4] at h
          cases inl with
          | false => exact ⟨log2, h⟩
          | true =>
            cases h5 : is_valid_log log2 with
            | error e => simp [h5] at h
            | ok valid =>
              simp only [h5] at h
              cases valid with
              | false => simp at h
              | true =>
                cases h6 : extract_lambda_log_message log2 with
                | error e => simp [h6] at h
                | ok log3 =>
                  simp only [h6] at h
                  exact ⟨log3, h⟩

/-- The final record matches the ignore list on `log_level` or `level`
(compared lower-cased against `LOG_LEVELS_IGNORE`). -/
def ignoredFinal (r : Dict) : Prop :=
  (∃ s, lookup r "log_level" = some (.str s) ∧
    LOG_LEVELS_IGNORE.contains (toLowerStr s) = true) ∨
  (∃ s, lookup r "level" = some (.str s) ∧
    LOG_LEVELS_IGNORE.contains (toLowerStr s) = true)

/-- An ignore-listed final record cannot pass both ignore checks. -/
theorem ignored_not_kept (r : Dict) (hig : ignoredFinal r) :
    ¬(check_key_ignored r "log_level" = .ok false ∧
      check_key_ignored r "level" = .ok false) := by
  rintro ⟨h1, h2⟩
  rcases hig with ⟨s, hl, hc⟩ | ⟨s, hl, hc⟩
  · rw [check_key_ignored, hl] at h1
    simp [pyLower] at h1
    exact h1 (by simpa using hc)
  · rw [check_key_ignored, hl] at h2
    simp [pyLower] at h2
    exact h2 (by simpa using hc)

/-- C2.  A record whose final `log_level` or `level`, compared
case-insensitively against the ignore list (`['info']`), matches an
ignored severity is dropped by `_parse_cloudwatch_log`, and removing it
from a batch leaves the sequence of `add` calls (and the batch outcome)
unchanged: it is never flattened and never shipped. -/
theorem ignored_level_record_dropped (env : Env) (log ad r : Dict) (b : Bool)
    (h : parse_cloudwatch_log env log ad = .ok (r, b))
    (hig : ignoredFinal r) :
    b = false ∧ ∀ pre post, run_log_events env (pre ++ .obj log :: post) ad =
      run_log_events env (pre ++ post) ad := by
  have hb : b = false := by
    cases b with
    | false => rfl
    | true =>
      exfalso
      obtain ⟨l, hl⟩ := parse_keep_from_tail env log ad r h
      exact ignored_not_kept r hig (parse_tail_keep env ad l r hl)
  subst hb
  exact ⟨rfl, run_log_events_drop env log ad r h⟩

/-- An environment with none of the three variables set. -/
def envNone : Env := ⟨none, none, none⟩

/-- A record whose `log_level` is `INFO` (ignored case-insensitively). -/
def c2log : Dict :=
  [("timestamp", .str "123"), ("message", .str "hello"), ("log_level", .str "INFO")]

/-- Batch metadata for a non-Lambda log group. -/
def c2ad : Dict := [("logGroup", .str "g")]

/-- The record after normalization (timestamp moved, metadata merged). -/
def c2res : Dict :=
  [("message", .str "hello"), ("log_level", .str "INFO"),
   ("@timestamp", .str "123"), ("logGroup", .str "g")]

/-- C2 witness: a concrete `INFO` record is dropped and contributes no
`add` call. -/
theorem ignored_level_record_dropped_witness :
    (parse_cloudwatch_log envNone c2log c2ad = .ok (c2res, false) ∧
      ignoredFinal c2res) ∧
    run_log_events envNone [.obj c2log] c2ad = run_log_events envNone [] c2ad :=
  ⟨⟨rfl, Or.inl ⟨"INFO", rfl, rfl⟩⟩,
   (ignored_level_record_dropped envNone c2log c2ad c2res false rfl
     (Or.inl ⟨"INFO", rfl, rfl⟩)).2 [] []⟩

/-! ## C3: housekeeping markers are dropped under a Lambda log group -/

/-- C3.  Under a managed-function log group (`logGroup` containing
`/aws/lambda/`), a record whose message starts with `START`, `END`,
`REPORT` or `INIT_START` is dropped right after the two inference steps:
`_parse_cloudwatch_log` returns `False` with the record exactly as
`_add_timestamp` and `_add_level` left it (no metadata merge, no JSON
expansion), and removing the record from a batch leaves the `add` calls
unchanged (no flattening, no shipping).  The record must carry one of the
two timestamp fields (as every raw entry does) for the inference steps to
pass. -/
theorem housekeeping_marker_dropped (env : Env) (log ad : Dict) (m g : String)
    (hm : lookup log "message" = some (.str m))
    (hstart : startsWithStr "START" m = true ∨ startsWithStr "END" m = true ∨
      startsWithStr "REPORT" m = true ∨ startsWithStr "INIT_START" m = true)
    (hts : hasKey log "@timestamp" = true ∨ (∃ v, lookup log "timestamp" = some v))
    (hg : lookup ad "logGroup" = some (.str g))
    (hlam : isSubstr LAMBDA_LOG_GROUP g = true) :
    (∃ t u, add_timestamp log = .ok t ∧ add_level t = .ok u ∧
      parse_cloudwatch_log env log ad = .ok (u, false)) ∧
    (∀ pre post, run_log_events env (pre ++ .obj log :: post) ad =
      run_log_events env (pre ++ post) ad) := by
  -- Step 1: timestamp inference succeeds and preserves the message.
  have h1 : ∃ t, add_timestamp log = .ok t ∧ lookup t "message" = some (.str m) := by
    by_cases hk : hasKey log "@timestamp"
    · exact ⟨log, by simp [add_timestamp, hk], hm⟩
    · rcases hts with hat | ⟨v, hv⟩
      · exact absurd hat hk
      · refine ⟨removeKey (setValue log "@timestamp" (.str (pyStr v))) "timestamp",
          by simp [add_timestamp, hk, hv], ?_⟩
        rw [lookup_removeKey_ne _ _ _ (by decide),
          lookup_setValue_ne _ _ _ _ (by decide)]
        exact hm
  obtain ⟨t, hT, hmt⟩ := h1
  -- Step 2: level inference succeeds and preserves the message.
  have h2 : ∃ u, add_level t = .ok u ∧ lookup u "message" = some (.str m) := by
    by_cases hlv : hasKey t "level"
    · exact ⟨t, by simp [add_level, hlv], hmt⟩
    · cases hsub : isSubstr "Task timed out after" m with
      | false =>
        exact ⟨t, by simp [add_level, hlv, hmt, pyIn, hsub], hmt⟩
      | true =>
        refine ⟨setValue t "level" (.str "error"),
          by simp [add_level, hlv, hmt, pyIn, hsub], ?_⟩
        rw [lookup_setValue_ne _ _ _ _ (by decide)]
        exact hmt
  obtain ⟨u, hU, hmu⟩ := h2
  -- Step 3: the marker check classifies the record as a housekeeping line.
  have hV : is_valid_log u = .ok false := by
    rcases hstart with h | h | h | h <;> simp [is_valid_log, hmu, h]
  -- Step 4: the normalizer drops the record right there.
  have hdg : dictGet ad "logGroup" = .ok (.str g) := by simp [dictGet, hg]
  have hin : pyIn LAMBDA_LOG_GROUP (.str g) = .ok true := by simp [pyIn, hlam]
  have hparse : parse_cloudwatch_log env log ad = .ok (u, false) := by
    simp [parse_cloudwatch_log, hT, hU, hdg, hin, hV]
  exact ⟨⟨t, u, hT, hU, hparse⟩, run_log_events_drop env log ad u hparse⟩

/-- A record whose message is a platform `START` line. -/
def c3log : Dict := [("message", .str "START RequestId: 1"), ("timestamp", .str "5")]

/-- Batch metadata naming a managed-function log group. -/
def c3ad : Dict := [("logGroup", .str "/aws/lambda/foo")]

/-- C3 witness: the concrete `START` record under `/aws/lambda/foo` is
dropped before the merge and contributes no `add` call. -/
theorem housekeeping_marker_dropped_witness :
    (lookup c3log "message" = some (.str "START RequestId: 1") ∧
      startsWithStr "START" "START RequestId: 1" = true ∧
      (∃ v, lookup c3log "timestamp" = some v) ∧
      lookup c3ad "logGroup" = some (.str "/aws/lambda/foo") ∧
      isSubstr LAMBDA_LOG_GROUP "/aws/lambda/foo" = true) ∧
    (∃ t u, add_timestamp c3log = .ok t ∧ add_level t = .ok u ∧
      parse_cloudwatch_log envNone c3log c3ad = .ok (u, false)) ∧
    run_log_events envNone [.obj c3log] c3ad = run_log_events envNone [] c3ad :=
  ⟨⟨rfl, rfl, ⟨.str "5", rfl⟩, rfl, rfl⟩,
   (housekeeping_marker_dropped envNone c3log c3ad "START RequestId: 1"
      "/aws/lambda/foo" rfl (Or.inl rfl) (Or.inr ⟨.str "5", rfl⟩) rfl rfl).1,
   (housekeeping_marker_dropped envNone c3log c3ad "START RequestId: 1"
      "/aws/lambda/foo" rfl (Or.inl rfl) (Or.inr ⟨.str "5", rfl⟩) rfl rfl).2 [] []⟩

/-! ## C7: kept records ship in order, one flush -/

/-- The loop's `add` calls are exactly the per-entry kept results, in the
batch's original order, whenever every entry processes without a fault. -/
theorem run_log_events_mapM (env : Env) (ad : Dict) (events : List JVal)
    (opts : List (Option Dict))
    (h : exMapM events (keptResult env ad) = .ok opts) :
    run_log_events env events ad = (opts.filterMap id, none) := by
  induction events generalizing opts with
  | nil =>
    unfold exMapM at h
    simp at h
    subst h
    rfl
  | cons x xs ih =>
    unfold exMapM at h
    cases hk : keptResult env ad x with
    | error e => simp [hk] at h
    | ok o =>
      simp only [hk] at h
      cases hrest : exMapM xs (keptResult env ad) with
      | error e => simp [hrest] at h
      | ok os =>
        simp only [hrest] at h
        simp at h
        subst h
        have hxs := ih os hrest
        unfold keptResult at hk
        cases x with
        | obj d =>
          cases hp : parse_cloudwatch_log env d ad with
          | error e => simp [hp] at hk
          | ok pr =>
            obtain ⟨r, b⟩ := pr
            cases b with
            | false =>
              simp [hp] at hk
              subst hk
              simpa [run_log_events, hp] using hxs
            | true =>
              cases hf : flatten_object r with
              | error e => simp [hp, hf] at hk
              | ok f =>
                simp [hp, hf] at hk
                subst hk
                simp [run_log_events, hp, hf, hxs]
        | str s => simp at hk
        | int n => simp at hk
        | bool b => simp at hk
        | null => simp at hk
        | arr l => simp at hk

/-- A successful effectful map preserves the length. -/
theorem exMapM_length (events : List JVal) (f : JVal → Except PyErr (Option Dict))
    (opts : List (Option Dict)) (h : exMapM events f = .ok opts) :
    opts.length = events.length := by
  induction events generalizing opts with
  | nil =>
    unfold exMapM at h
    simp at h
    subst h
    rfl
  | cons x xs ih =>
    unfold exMapM at h
    cases hk : f x with
    | error e => simp [hk] at h
    | ok o =>
      simp only [hk] at h
      cases hrest : exMapM xs f with
      | error e => simp [hrest] at h
      | ok os =>
        simp only [hrest] at h
        simp at h
        subst h
        simp [ih os hrest]

/-- With no dropped entries, `filterMap id` keeps everything. -/
theorem filterMap_id_all_some (os : List (Option Dict))
    (h : ∀ o ∈ os, o.isSome) : (os.filterMap id).length = os.length := by
  induction os with
  | nil => rfl
  | cons o os ih =>
    cases o with
    | some f => simp [ih (fun x hx => h x (List.mem_cons_of_mem _ hx))]
    | none =>
      exact absurd (h none (List.mem_cons_self _ _)) (by simp)

/-- C7.  When every entry of a batch processes without a fault, the
Shipper receives exactly the kept records' flattened forms via `add`, in
the batch's original order, followed by exactly one `flush`; with zero
drops the number of `add` calls equals the number of entries. -/
theorem batch_adds_in_order_one_flush (env : Env) (ad : Dict)
    (events : List JVal) (opts : List (Option Dict))
    (h : exMapM events (keptResult env ad) = .ok opts) :
    run_batch env events ad = (opts.filterMap id, 1, none) ∧
    ((∀ o ∈ opts, o.isSome) → (opts.filterMap id).length = events.length) := by
  constructor
  · unfold run_batch
    rw [run_log_events_mapM env ad events opts h]
    rfl
  · intro hall
    rw [filterMap_id_all_some opts hall]
    exact exMapM_length events _ opts h

/-- A two-entry batch whose records are both kept. -/
def c7events : List JVal :=
  [.obj [("timestamp", .str "1"), ("message", .str "alpha")],
   .obj [("timestamp", .str "2"), ("message", .str "beta")]]

/-- Batch metadata for the C7 witness. -/
def c7ad : Dict := [("logGroup", .str "g")]

/-- The two flattened shipped records, in order. -/
def c7fa : Dict :=
  [("message", .str "alpha"), ("@timestamp", .str "1"),
   ("logGroup", .str "g"), ("logVerstion", .str "v3")]

def c7fb : Dict :=
  [("message", .str "beta"), ("@timestamp", .str "2"),
   ("logGroup", .str "g"), ("logVerstion", .str "v3")]

/-- C7 witness: the two-entry, zero-drop batch produces exactly its two
flattened records in order and one flush. -/
theorem batch_adds_in_order_one_flush_witness :
    exMapM c7events (keptResult envNone c7ad) = .ok [some c7fa, some c7fb] ∧
    run_batch envNone c7events c7ad = ([c7fa, c7fb], 1, none) ∧
    ([c7fa, c7fb] : List Dict).length = c7events.length :=
  ⟨rfl,
   (batch_adds_in_order_one_flush envNone c7ad c7events [some c7fa, some c7fb] rfl).1,
   (batch_adds_in_order_one_flush envNone c7ad c7events [some c7fa, some c7fb] rfl).2
     (by simp)⟩

/-! ## C9: flattening and the `data` promotion -/

/-- C9 counterexample: a composite but non-mapping `data` value (here a
list) makes `flatten_object` raise `AttributeError` from `.items()`
instead of promoting/serializing, so the claim fails for general
composite values. -/
theorem flatten_data_nonmapping_counterexample :
    flatten_object [("data", .arr [.int 1])] = .error .attributeError ∧
    ∀ f, flatten_object [("data", .arr [.int 1])] ≠ .ok f :=
  ⟨rfl, fun f h => by simp [flatten_object, flattenLoop, is_simple_value] at h⟩

/-- The keys of an association list. -/
def keysOf (d : List (String × JVal)) : List String := d.map Prod.fst

theorem keysOf_cons (k : String) (v : JVal) (rest : List (String × JVal)) :
    keysOf ((k, v) :: rest) = k :: keysOf rest := rfl

theorem mem_keysOf_of_mem (k0 : String) (v0 : JVal)
    (sub : List (String × JVal)) (h : (k0, v0) ∈ sub) : k0 ∈ keysOf sub :=
  List.mem_map_of_mem Prod.fst h

/-- Unfolding: a primitive field is copied through. -/
theorem flattenLoop_cons_simple (k : String) (v : JVal)
    (rest : List (String × JVal)) (acc : Dict) (hs : is_simple_value v = true) :
    flattenLoop ((k, v) :: rest) acc = flattenLoop rest (setValue acc k v) := by
  simp [flattenLoop, hs]

/-- Unfolding: a composite field other than `data` is serialized. -/
theorem flattenLoop_cons_other (k : String) (v : JVal)
    (rest : List (String × JVal)) (acc : Dict)
    (hs : is_simple_value v = false) (hk : k ≠ "data") :
    flattenLoop ((k, v) :: rest) acc =
      flattenLoop rest (setValue acc k (.str (jsonDumps v))) := by
  cases v <;> simp_all [flattenLoop, is_simple_value, hk]

/-- Unfolding: a `data` field holding a mapping promotes its primitive
sub-fields and then serializes the whole value. -/
theorem flattenLoop_cons_data (sub rest : List (String × JVal)) (acc : Dict) :
    flattenLoop (("data", .obj sub) :: rest) acc =
      flattenLoop rest
        (setValue (promoteData acc sub) "data" (.str (jsonDumps (.obj sub)))) := by
  simp [flattenLoop, is_simple_value]

/-- Flattening a segment whose keys avoid `data` never fails. -/
theorem flattenLoop_no_data_ok (l : List (String × JVal)) (acc : Dict)
    (hd : "data" ∉ keysOf l) : ∃ m, flattenLoop l acc = .ok m := by
  induction l generalizing acc with
  | nil => exact ⟨acc, rfl⟩
  | cons x rest ih =>
    obtain ⟨k, v⟩ := x
    rw [keysOf_cons] at hd
    have hk : k ≠ "data" := fun hh => hd (hh ▸ List.mem_cons_self _ _)
    have hd' : "data" ∉ keysOf rest := fun hm => hd (List.mem_cons_of_mem _ hm)
    cases hs : is_simple_value v with
    | true => rw [flattenLoop_cons_simple k v rest acc hs]; exact ih _ hd'
    | false => rw [flattenLoop_cons_other k v rest acc hs hk]; exact ih _ hd'

/-- Flattening a segment that does not write a key leaves that key's
binding in the accumulator unchanged. -/
theorem flattenLoop_preserve (l : List (String × JVal)) (k0 : String) :
    ∀ (acc f : Dict), flattenLoop l acc = .ok f →
    "data" ∉ keysOf l → k0 ∉ keysOf l →
    lookup f k0 = lookup acc k0 := by
  induction l with
  | nil =>
    intro acc f h _ _
    unfold flattenLoop at h
    simp at h
    subst h
    rfl
  | cons x rest ih =>
    intro acc f h hd hk0
    obtain ⟨k, v⟩ := x
    rw [keysOf_cons] at hd hk0
    have hk : k ≠ "data" := fun hh => hd (hh ▸ List.mem_cons_self _ _)
    have hne : k0 ≠ k := fun hh => hk0 (hh ▸ List.mem_cons_self _ _)
    have hd' : "data" ∉ keysOf rest := fun hm => hd (List.mem_cons_of_mem _ hm)
    have hk0' : k0 ∉ keysOf rest := fun hm => hk0 (List.mem_cons_of_mem _ hm)
    cases hs : is_simple_value v with
    | true =>
      rw [flattenLoop_cons_simple k v rest acc hs] at h
      rw [ih _ _ h hd' hk0', lookup_setValue_ne _ _ _ _ hne]
    | false =>
      rw [flattenLoop_cons_other k v rest acc hs hk] at h
      rw [ih _ _ h hd' hk0', lookup_setValue_ne _ _ _ _ hne]

/-- Promotion does not write keys outside the sub-object. -/
theorem promote_notin (sub : List (String × JVal)) (k0 : String) :
    ∀ acc : Dict, k0 ∉ keysOf sub →
    lookup (promoteData acc sub) k0 = lookup acc k0 := by
  induction sub with
  | nil => intro acc _; rfl
  | cons x rest ih =>
    intro acc h
    obtain ⟨k, v⟩ := x
    rw [keysOf_cons] at h
    have hne : k0 ≠ k := fun hh => h (hh ▸ List.mem_cons_self _ _)
    have h' : k0 ∉ keysOf rest := fun hm => h (List.mem_cons_of_mem _ hm)
    simp only [promoteData, List.foldl_cons] at ih ⊢
    cases hs : is_simple_value v with
    | true =>
      simp only [hs, if_true]
      rw [ih _ h', lookup_setValue_ne _ _ _ _ hne]
    | false =>
      simp only [hs, Bool.false_eq_true, if_false]
      exact ih _ h'

/-- A primitive sub-field is promoted: after the loop its key is bound to
its value. -/
theorem promote_mem (sub : List (String × JVal)) (k0 : String) (v0 : JVal) :
    ∀ acc : Dict, (keysOf sub).Nodup → (k0, v0) ∈ sub →
    is_simple_value v0 = true →
    lookup (promoteData acc sub) k0 = some v0 := by
  induction sub with
  | nil => intro acc _ hmem _; cases hmem
  | cons x rest ih =>
    intro acc hnd hmem hs
    obtain ⟨k, v⟩ := x
    rw [keysOf_cons, List.nodup_cons] at hnd
    rcases List.mem_cons.mp hmem with heq | htl
    · rw [Prod.mk.injEq] at heq
      obtain ⟨hk, hv⟩ := heq
      subst hk
      subst hv
      simp only [promoteData, List.foldl_cons, hs, if_true]
      have hpn : lookup (promoteData (setValue acc k0 v0) rest) k0 =
          lookup (setValue acc k0 v0) k0 := promote_notin rest k0 _ hnd.1
      simp only [promoteData] at hpn
      rw [hpn, lookup_setValue_self]
    · simp only [promoteData, List.foldl_cons] at ih ⊢
      cases hsv : is_simple_value v with
      | true =>
        simp only [hsv, if_true]
        exact ih _ hnd.2 htl hs
      | false =>
        simp only [hsv, Bool.false_eq_true, if_false]
        exact ih _ hnd.2 htl hs

/-- A composite sub-field is skipped by the promotion loop. -/
theorem promote_comp (sub : List (String × JVal)) (k0 : String) (v0 : JVal) :
    ∀ acc : Dict, (keysOf sub).Nodup → (k0, v0) ∈ sub →
    is_simple_value v0 = false →
    lookup (promoteData acc sub) k0 = lookup acc k0 := by
  induction sub with
  | nil => intro acc _ hmem _; cases hmem
  | cons x rest ih =>
    intro acc hnd hmem hs
    obtain ⟨k, v⟩ := x
    rw [keysOf_cons, List.nodup_cons] at hnd
    rcases List.mem_cons.mp hmem with heq | htl
    · rw [Prod.mk.injEq] at heq
      obtain ⟨hk, hv⟩ := heq
      subst hk
      subst hv
      simp only [promoteData, List.foldl_cons, hs, Bool.false_eq_true, if_false]
      exact promote_notin rest k0 _ hnd.1
    · have hkne : k0 ≠ k :=
        fun hh => hnd.1 (hh ▸ mem_keysOf_of_mem k0 v0 rest htl)
      simp only [promoteData, List.foldl_cons] at ih ⊢
      cases hsv : is_simple_value v with
      | true =>
        simp only [hsv, if_true]
        rw [ih _ hnd.2 htl hs, lookup_setValue_ne _ _ _ _ hkne]
      | false =>
        simp only [hsv, Bool.false_eq_true, if_false]
        exact ih _ hnd.2 htl hs

/-- Flattening distributes over a successfully-flattened prefix. -/
theorem flattenLoop_append_ok (a : List (String × JVal)) :
    ∀ (b : List (String × JVal)) (acc m : Dict), flattenLoop a acc = .ok m →
    flattenLoop (a ++ b) acc = flattenLoop b m := by
  induction a with
  | nil =>
    intro b acc m h
    unfold flattenLoop at h
    simp at h
    subst h
    rfl
  | cons x rest ih =>
    intro b acc m h
    obtain ⟨k, v⟩ := x
    cases hs : is_simple_value v with
    | true =>
      rw [flattenLoop_cons_simple _ _ _ _ hs] at h
      rw [List.cons_append, flattenLoop_cons_simple _ _ _ _ hs]
      exact ih b _ m h
    | false =>
      by_cases hk : k = "data"
      · subst hk
        cases v with
        | obj sub =>
          rw [flattenLoop_cons_data] at h
          rw [List.cons_append, flattenLoop_cons_data]
          exact ih b _ m h
        | str s => simp [is_simple_value] at hs
        | int n => simp [is_simple_value] at hs
        | bool b2 => simp [is_simple_value] at hs
        | null => simp [flattenLoop, is_simple_value] at h
        | arr l => simp [flattenLoop, is_simple_value] at h
      · rw [flattenLoop_cons_other _ _ _ _ hs hk] at h
        rw [List.cons_append, flattenLoop_cons_other _ _ _ _ hs hk]
        exact ih b _ m h

/-- C9 amended.  For a record with pairwise-distinct keys whose `data`
field holds a composite MAPPING (and whose sub-keys do not collide with
the record's own keys or the version marker), flattening succeeds,
promotes each primitive sub-field of `data` to a top-level output field
under its own key, skips composite sub-fields (their keys are absent from
the output), still serializes the whole `data` value to a JSON string
under `data`, and adds the `logVerstion` marker. -/
theorem flatten_data_mapping_promotion (L1 L2 sub : List (String × JVal))
    (hnd : (keysOf (L1 ++ ("data", JVal.obj sub) :: L2)).Nodup)
    (hsubnd : (keysOf sub).Nodup)
    (hdisj : ∀ k ∈ keysOf sub,
      k ∉ keysOf (L1 ++ ("data", JVal.obj sub) :: L2) ∧ k ≠ "logVerstion") :
    ∃ f, flatten_object (L1 ++ ("data", .obj sub) :: L2) = .ok f ∧
      (∀ k0 v0, (k0, v0) ∈ sub → is_simple_value v0 = true →
        lookup f k0 = some v0) ∧
      (∀ k0 v0, (k0, v0) ∈ sub → is_simple_value v0 = false →
        lookup f k0 = none) ∧
      lookup f "data" = some (.str (jsonDumps (.obj sub))) ∧
      lookup f "logVerstion" = some (.str "v3") := by
  have hkeys : keysOf (L1 ++ ("data", JVal.obj sub) :: L2) =
      keysOf L1 ++ "data" :: keysOf L2 := by
    simp [keysOf]
  rw [hkeys] at hnd
  rw [List.nodup_append] at hnd
  obtain ⟨hnd1, hnd2, hdisj12⟩ := hnd
  rw [List.nodup_cons] at hnd2
  obtain ⟨hdL2, hndL2⟩ := hnd2
  have hdL1 : "data" ∉ keysOf L1 := fun hm => hdisj12 hm (List.mem_cons_self _ _)
  obtain ⟨acc1, hacc1⟩ := flattenLoop_no_data_ok L1 [] hdL1
  obtain ⟨acc3, hacc3⟩ := flattenLoop_no_data_ok L2
    (setValue (promoteData acc1 sub) "data" (.str (jsonDumps (.obj sub)))) hdL2
  have hfl : flattenLoop (L1 ++ ("data", JVal.obj sub) :: L2) [] = .ok acc3 := by
    rw [flattenLoop_append_ok L1 _ [] acc1 hacc1, flattenLoop_cons_data, hacc3]
  refine ⟨setValue acc3 "logVerstion" (.str "v3"), ?_, ?_, ?_, ?_, ?_⟩
  · unfold flatten_object
    rw [hfl]
  · intro k0 v0 hmem hsv
    obtain ⟨hnot, hnlv⟩ := hdisj k0 (mem_keysOf_of_mem k0 v0 sub hmem)
    rw [hkeys] at hnot
    have hnL2 : k0 ∉ keysOf L2 :=
      fun hm => hnot (List.mem_append_right _ (List.mem_cons_of_mem _ hm))
    have hnd0 : k0 ≠ "data" :=
      fun hh => hnot (List.mem_append_right _ (hh ▸ List.mem_cons_self _ _))
    rw [lookup_setValue_ne _ _ _ _ hnlv,
      flattenLoop_preserve L2 k0 _ acc3 hacc3 hdL2 hnL2,
      lookup_setValue_ne _ _ _ _ hnd0]
    exact promote_mem sub k0 v0 acc1 hsubnd hmem hsv
  · intro k0 v0 hmem hsv
    obtain ⟨hnot, hnlv⟩ := hdisj k0 (mem_keysOf_of_mem k0 v0 sub hmem)
    rw [hkeys] at hnot
    have hnL1 : k0 ∉ keysOf L1 := fun hm => hnot (List.mem_append_left _ hm)
    have hnL2 : k0 ∉ keysOf L2 :=
      fun hm => hnot (List.mem_append_right _ (List.mem_cons_of_mem _ hm))
    have hnd0 : k0 ≠ "data" :=
      fun hh => hnot (List.mem_append_right _ (hh ▸ List.mem_cons_self _ _))
    rw [lookup_setValue_ne _ _ _ _ hnlv,
      flattenLoop_preserve L2 k0 _ acc3 hacc3 hdL2 hnL2,
      lookup_setValue_ne _ _ _ _ hnd0,
      promote_comp sub k0 v0 acc1 hsubnd hmem hsv,
      flattenLoop_preserve L1 k0 [] acc1 hacc1 hdL1 hnL1]
    rfl
  · rw [lookup_setValue_ne _ _ _ _ (by decide),
      flattenLoop_preserve L2 "data" _ acc3 hacc3 hdL2 hdL2]
    exact lookup_setValue_self _ _ _
  · rw [lookup_setValue_self]

/-- The sub-object of the C9 witness record: one primitive and one
composite sub-field. -/
def c9sub : List (String × JVal) := [("a", .int 1), ("b", .obj [])]

/-- C9 witness: a record `x=7, data={a: 1, b: {}}` flattens with `a`
promoted, `b` skipped, `data` serialized whole and the marker added. -/
theorem flatten_data_mapping_promotion_witness :
    ((keysOf ([("x", JVal.int 7)] ++ ("data", JVal.obj c9sub) :: [])).Nodup ∧
      (keysOf c9sub).Nodup ∧
      (∀ k ∈ keysOf c9sub,
        k ∉ keysOf ([("x", JVal.int 7)] ++ ("data", JVal.obj c9sub) :: []) ∧
        k ≠ "logVerstion")) ∧
    (∃ f, flatten_object ([("x", JVal.int 7)] ++ ("data", .obj c9sub) :: []) = .ok f ∧
      (∀ k0 v0, (k0, v0) ∈ c9sub → is_simple_value v0 = true →
        lookup f k0 = some v0) ∧
      (∀ k0 v0, (k0, v0) ∈ c9sub → is_simple_value v0 = false →
        lookup f k0 = none) ∧
      lookup f "data" = some (.str (jsonDumps (.obj c9sub))) ∧
      lookup f "logVerstion" = some (.str "v3")) :=
  ⟨⟨by decide, by decide, by decide⟩,
   flatten_data_mapping_promotion [("x", .int 7)] [] c9sub
     (by decide) (by decide) (by decide)⟩
